import Mathlib

/-!
Shallow embedding of the WebP container decoder (`src/webp/decoder.rs`).

A byte source is a `List Nat` of bytes (each conceptually `< 256`; only
equality with concrete tag constants matters to the container layer).
Reading consumes from the front of the list; every reading operation
returns its result together with the remaining stream, mirroring the
Rust code's in-place consumption of `self.r`.

Rust I/O semantics embedded here:
* `r.by_ref().take(n).read_to_end(&mut v)` reads `min(n, available)`
  bytes and never fails on a short read: modelled as `List.take` /
  `List.drop`.
* `r.read_u32::<LittleEndian>()` needs exactly 4 bytes and fails with
  `UnexpectedEof` (an `IoTruncated`-kind error) when fewer remain:
  modelled by matching four cons cells.
* `io::copy(&mut r.by_ref().take(len), &mut io::sink())` discards
  `min(len, available)` bytes and never fails: modelled as `List.drop`.
* `u32` arithmetic wraps modulo 2^32 (release-mode Rust semantics), made
  explicit where the code increments a length.
-/

/-- Decidable equality for `Except`, so that concrete runs of the
embedded functions can be checked by `decide`. -/
def Except.decEq {ε α : Type} [DecidableEq ε] [DecidableEq α] :
    (x y : Except ε α) → Decidable (x = y)
  | .ok a, .ok b => decidable_of_iff (a = b) (by simp)
  | .error a, .error b => decidable_of_iff (a = b) (by simp)
  | .ok _, .error _ => isFalse (by intro h; cases h)
  | .error _, .ok _ => isFalse (by intro h; cases h)

instance {ε α : Type} [DecidableEq ε] [DecidableEq α] :
    DecidableEq (Except ε α) := Except.decEq

/-- "RIFF" as bytes. -/
def tagRIFF : List Nat := [82, 73, 70, 70]

/-- "WEBP" as bytes. -/
def tagWEBP : List Nat := [87, 69, 66, 80]

/-- "VP8 " as bytes: the single supported payload chunk tag. -/
def tagVP8 : List Nat := [86, 80, 56, 32]

/-- "ALPH" as bytes. -/
def tagALPH : List Nat := [65, 76, 80, 72]

/-- "VP8L" as bytes. -/
def tagVP8L : List Nat := [86, 80, 56, 76]

/-- "ANIM" as bytes. -/
def tagANIM : List Nat := [65, 78, 73, 77]

/-- "ANMF" as bytes. -/
def tagANMF : List Nat := [65, 78, 77, 70]

/-- The four reserved-but-unsupported feature tags, matched by the
`b"ALPH" | b"VP8L" | b"ANIM" | b"ANMF"` arm of `read_vp8_header`. -/
def isFeatureTag (t : List Nat) : Bool :=
  t == tagALPH || t == tagVP8L || t == tagANIM || t == tagANMF

/-- Error kinds produced by the container layer, one constructor per
distinct error path of the Rust code:
* `malformedEnvelope msg` — `ImageError::Decoding` with the given
  message, raised by the envelope checks;
* `unsupportedFeature` — `ImageError::Decoding("Unsupported WEBP
  feature.")`, raised on the four feature tags;
* `ioTruncated` — the `io::Error` (`UnexpectedEof`) produced when
  `read_u32` cannot fill its 4 bytes;
* `decodeFailed msg` — an error returned by the external bitstream
  decoder (opaque to this layer). -/
inductive WebpError where
  | malformedEnvelope (msg : String)
  | unsupportedFeature
  | ioTruncated
  | decodeFailed (msg : String)
deriving DecidableEq

/-- Classifier: is this error of the `MalformedEnvelope` kind? -/
def WebpError.is_malformed : WebpError → Bool
  | .malformedEnvelope _ => true
  | _ => false

/-- Little-endian decoding of 4 bytes, as done by
`read_u32::<LittleEndian>`. -/
def le32 (b0 b1 b2 b3 : Nat) : Nat :=
  b0 + 256 * b1 + 65536 * b2 + 16777216 * b3

/-- Little-endian encoding of a `u32` value into 4 bytes. -/
def le32enc (n : Nat) : List Nat :=
  [n % 256, n / 256 % 256, n / 65536 % 256, n / 16777216 % 256]

/-- The number of bytes the chunk walker discards for an ignorable
chunk of declared length `len`: `len` rounded up to even via
`len += 1`, a `u32` addition that wraps modulo 2^32 (release-mode Rust
semantics). -/
def padded_skip (len : Nat) : Nat :=
  if len % 2 ≠ 0 then (len + 1) % 4294967296 else len

/-- The decoded frame handed back by the external bitstream decoder.

Modelled from the spec: the `vp8::Frame` type is not part of this
container layer's source; per the spec a Decoded Frame has a width and a
height (unsigned, ≤ 16 bits) and a single-plane sample buffer whose
length is established by the external decoder. -/
structure Frame where
  width : Nat
  height : Nat
  ybuf : List Nat
deriving DecidableEq

/-- Modelled from the spec: `Default::default()` for `Frame` — the empty
frame a decoder instance is constructed with before metadata extraction
(zero dimensions, empty plane). -/
def defaultFrame : Frame := ⟨0, 0, []⟩

/-- An external bitstream decoder: payload bytes in, frame or error out.
The container layer treats it as an opaque capability
(`Vp8Decoder::new(..).decode_frame()`). -/
def ExtDecoder : Type := List Nat → Except WebpError Frame

/-- Decoder state: the remaining byte source `r`, the stored `frame`,
and the one-shot `have_frame` flag — the three fields of the Rust
`WebPDecoder` struct. -/
structure WebPDecoder where
  r : List Nat
  frame : Frame
  have_frame : Bool
deriving DecidableEq

/-- `WebPDecoder::read_riff_header`, as a function of the byte source:
reads up to 4 bytes (the would-be "RIFF" tag), a little-endian `u32`
size, up to 4 bytes (the would-be "WEBP" tag), then checks the two tags
in that order.  Returns the declared size and the remaining stream; on
error, returns the error and the stream as the failing step left it. -/
def read_riff_header (s : List Nat) : Except WebpError Nat × List Nat :=
  let riff := s.take 4
  match s.drop 4 with
  | b0 :: b1 :: b2 :: b3 :: s2 =>
    let webp := s2.take 4
    let s3 := s2.drop 4
    if riff ≠ tagRIFF then
      (.error (.malformedEnvelope "Invalid RIFF signature"), s3)
    else if webp ≠ tagWEBP then
      (.error (.malformedEnvelope "Invalid WEBP signature"), s3)
    else
      (.ok (le32 b0 b1 b2 b3), s3)
  | _ => (.error .ioTruncated, [])

/-- `WebPDecoder::read_vp8_header`, as a function of the byte source:
loop reading a 4-byte chunk tag; on `"VP8 "` read and return the
declared length; on a feature tag fail with `unsupportedFeature`
without reading further; otherwise read the length, round it up to even
(`u32` wrap-around addition, as in release-mode Rust), discard that many
bytes and continue. -/
def read_vp8_header (s : List Nat) : Except WebpError Nat × List Nat :=
  let chunk := s.take 4
  if chunk = tagVP8 then
    match s.drop 4 with
    | b0 :: b1 :: b2 :: b3 :: s2 => (.ok (le32 b0 b1 b2 b3), s2)
    | _ => (.error .ioTruncated, [])
  else if isFeatureTag chunk then
    (.error .unsupportedFeature, s.drop 4)
  else
    match h : s.drop 4 with
    | b0 :: b1 :: b2 :: b3 :: s2 =>
      read_vp8_header (s2.drop (padded_skip (le32 b0 b1 b2 b3)))
    | _ => (.error .ioTruncated, [])
termination_by s.length
decreasing_by
  have hl := congrArg List.length h
  simp only [List.length_drop, List.length_cons] at hl
  simp only [List.length_drop]
  omega

/-- `WebPDecoder::read_frame`: read up to `len` bytes as the payload
(`take(len).read_to_end`, short read allowed), hand them to the external
bitstream decoder, and return the decoded frame.  The stream is advanced
past the payload bytes whether or not the decode succeeds. -/
def read_frame (dec : ExtDecoder) (len : Nat) (s : List Nat) :
    Except WebpError Frame × List Nat :=
  let framedata := s.take len
  match dec framedata with
  | .ok frame => (.ok frame, s.drop len)
  | .error e => (.error e, s.drop len)

/-- `WebPDecoder::read_metadata`: no-op if `have_frame` is already set;
otherwise validate the envelope, walk the chunks, read and decode the
payload, store the frame and set the flag.  Any error is propagated and
leaves `frame` and `have_frame` untouched. -/
def read_metadata (dec : ExtDecoder) (d : WebPDecoder) :
    Except WebpError Unit × WebPDecoder :=
  if d.have_frame then (.ok (), d)
  else
    match read_riff_header d.r with
    | (.error e, r1) => (.error e, { d with r := r1 })
    | (.ok _, r1) =>
      match read_vp8_header r1 with
      | (.error e, r2) => (.error e, { d with r := r2 })
      | (.ok len, r2) =>
        match read_frame dec len r2 with
        | (.error e, r3) => (.error e, { d with r := r3 })
        | (.ok frame, r3) => (.ok (), { r := r3, frame := frame, have_frame := true })

/-- `WebPDecoder::new`: construct the empty instance and eagerly run
`read_metadata`, propagating its error. -/
def WebPDecoder.new (dec : ExtDecoder) (r : List Nat) :
    Except WebpError WebPDecoder :=
  let d : WebPDecoder := { r := r, frame := defaultFrame, have_frame := false }
  match read_metadata dec d with
  | (.ok _, d1) => .ok d1
  | (.error e, _) => .error e

/-- The only color type this decoder produces. -/
inductive ColorType where
  | L8
deriving DecidableEq

/-- Modelled from the spec: the color model is single-channel 8-bit
luma, so one byte per pixel. -/
def ColorType.bytes_per_pixel : ColorType → Nat
  | .L8 => 1

/-- `ImageDecoder::dimensions` for `WebPDecoder`: a pure read of the
stored frame's width and height. -/
def WebPDecoder.dimensions (d : WebPDecoder) : Nat × Nat :=
  (d.frame.width, d.frame.height)

/-- `ImageDecoder::color_type` for `WebPDecoder`: constantly `L8`. -/
def WebPDecoder.color_type (_ : WebPDecoder) : ColorType :=
  ColorType.L8

/-- Modelled from the spec: `total_byte_size()` of the generic
image-decoder contract — dimensions times bytes per pixel (the trait
itself is not part of this source file). -/
def WebPDecoder.total_bytes (d : WebPDecoder) : Nat :=
  d.dimensions.1 * d.dimensions.2 * d.color_type.bytes_per_pixel

/-- `ImageDecoder::read_image` for `WebPDecoder`:
`assert_eq!(buf.len(), total_bytes)` then `buf.copy_from_slice(&ybuf)`.
A panic (failed assertion, or `copy_from_slice` length mismatch) is
modelled as `none`; on success the caller's buffer holds exactly the
stored plane. -/
def WebPDecoder.read_image (d : WebPDecoder) (buf : List Nat) :
    Option (List Nat) :=
  if buf.length = d.total_bytes then
    if buf.length = d.frame.ybuf.length then some d.frame.ybuf else none
  else none

/-- The `WebpReader` wrapper around `Cursor<Vec<u8>>`: the vector and
the cursor position. -/
structure WebpReader where
  vec : List Nat
  pos : Nat
deriving DecidableEq

/-- `Read::read` for `WebpReader` (delegated to the cursor): deliver up
to `n` of the remaining bytes and advance the position. -/
def WebpReader.read (r : WebpReader) (n : Nat) : List Nat × WebpReader :=
  let out := (r.vec.drop r.pos).take n
  (out, { r with pos := r.pos + out.length })

/-- `Read::read_to_end` for `WebpReader`: if the position is 0 and the
caller's buffer is empty, `mem::swap` the vector with the buffer
(zero-copy fast path) and report its length; otherwise delegate to the
cursor, which appends all remaining bytes and moves the position to the
end.  Returns (count, new buffer contents, new reader state). -/
def WebpReader.read_to_end (r : WebpReader) (buf : List Nat) :
    Nat × List Nat × WebpReader :=
  if r.pos = 0 ∧ buf = [] then
    (r.vec.length, r.vec, { vec := [], pos := 0 })
  else
    let out := r.vec.drop r.pos
    (out.length, buf ++ out, { r with pos := r.vec.length })

/-- `ImageDecoder::into_reader` for `WebPDecoder`:
`WebpReader(Cursor::new(self.frame.ybuf))`. -/
def WebPDecoder.into_reader (d : WebPDecoder) : WebpReader :=
  ⟨d.frame.ybuf, 0⟩

/-- Modelled from the spec: the always-copy reference reader — a plain
cursor over the frame buffer with no zero-copy fast path, the
"correctness-preserving fallback" named by the spec. -/
structure RefReader where
  vec : List Nat
  pos : Nat
deriving DecidableEq

/-- Reference reader `read`: identical cursor semantics. -/
def RefReader.read (r : RefReader) (n : Nat) : List Nat × RefReader :=
  let out := (r.vec.drop r.pos).take n
  (out, { r with pos := r.pos + out.length })

/-- Reference reader `read_to_end`: always copy — append all remaining
bytes to the caller's buffer and move to the end. -/
def RefReader.read_to_end (r : RefReader) (buf : List Nat) :
    Nat × List Nat × RefReader :=
  let out := r.vec.drop r.pos
  (out.length, buf ++ out, { r with pos := r.vec.length })

/-- A request against a sequential reader: `read n` (a buffer of size
`n`) or `readToEnd buf` (read-to-end into a caller buffer currently
holding `buf`). -/
inductive ReadReq where
  | read (n : Nat)
  | readToEnd (buf : List Nat)
deriving DecidableEq

/-- Run a request sequence against a `WebpReader`, observing for each
request the bytes delivered (for `read`, the filled prefix; for
`readToEnd`, the resulting buffer contents) and the returned count. -/
def runWebp : List ReadReq → WebpReader → List (List Nat × Nat)
  | [], _ => []
  | .read n :: rest, r =>
    let p := r.read n
    (p.1, p.1.length) :: runWebp rest p.2
  | .readToEnd buf :: rest, r =>
    let p := r.read_to_end buf
    (p.2.1, p.1) :: runWebp rest p.2.2

/-- Run a request sequence against the always-copy reference reader,
with the same observations. -/
def runRef : List ReadReq → RefReader → List (List Nat × Nat)
  | [], _ => []
  | .read n :: rest, r =>
    let p := r.read n
    (p.1, p.1.length) :: runRef rest p.2
  | .readToEnd buf :: rest, r =>
    let p := r.read_to_end buf
    (p.2.1, p.1) :: runRef rest p.2.2

/-- Modelled from the spec: the stub external decoder of the spec's
concrete scenario — accepts any payload and returns a 2×2 all-128
frame. -/
def stubDec : ExtDecoder := fun _ => .ok ⟨2, 2, [128, 128, 128, 128]⟩

/-- Classifier on extraction results: did the run end in a
`MalformedEnvelope`-kind error? -/
def result_malformed (p : Except WebpError Unit × WebPDecoder) : Bool :=
  match p.fst with
  | .error e => e.is_malformed
  | .ok _ => false

/-- A byte stream that is a sequence of ignorable chunks and nothing
else: each chunk is a 4-byte tag that is neither the payload tag nor a
feature tag, a 4-byte little-endian length, and exactly as many bytes
as the walker discards for that length. -/
inductive IgnorableStream : List Nat → Prop where
  | nil : IgnorableStream []
  | cons (a b c d b0 b1 b2 b3 : Nat) (data rest : List Nat)
      (hnp : [a, b, c, d] ≠ tagVP8)
      (hnf : isFeatureTag [a, b, c, d] = false)
      (hd : data.length = padded_skip (le32 b0 b1 b2 b3))
      (h : IgnorableStream rest) :
      IgnorableStream (a :: b :: c :: d :: b0 :: b1 :: b2 :: b3 :: (data ++ rest))

/-! Helper lemmas about the embedded operations. -/

theorem take4_eq (a b c d : Nat) (t : List Nat) :
    (a :: b :: c :: d :: t).take 4 = [a, b, c, d] := rfl

theorem drop4_eq (a b c d : Nat) (t : List Nat) :
    (a :: b :: c :: d :: t).drop 4 = t := rfl

theorem list_four_cons (l : List Nat) (h : 4 ≤ l.length) :
    ∃ a b c d t, l = a :: b :: c :: d :: t := by
  rcases l with _ | ⟨a, _ | ⟨b, _ | ⟨c, _ | ⟨d, t⟩⟩⟩⟩ <;>
    first
      | exact ⟨a, b, c, d, t, rfl⟩
      | (exfalso; simp only [List.length] at h; omega)

theorem featureTag_cases (t : List Nat) (ht : isFeatureTag t = true) :
    t = tagALPH ∨ t = tagVP8L ∨ t = tagANIM ∨ t = tagANMF := by
  simp only [isFeatureTag, Bool.or_eq_true, beq_iff_eq] at ht
  tauto

theorem rvh_payload (b0 b1 b2 b3 : Nat) (s2 : List Nat) :
    read_vp8_header (tagVP8 ++ b0 :: b1 :: b2 :: b3 :: s2) =
      (.ok (le32 b0 b1 b2 b3), s2) := by
  rw [read_vp8_header]
  simp [tagVP8, take4_eq, drop4_eq]

theorem rvh_feature (t : List Nat) (ht : isFeatureTag t = true) (rest : List Nat) :
    read_vp8_header (t ++ rest) = (.error .unsupportedFeature, rest) := by
  rcases featureTag_cases t ht with h | h | h | h <;> subst h <;>
    · rw [read_vp8_header]
      simp [tagALPH, tagVP8L, tagANIM, tagANMF, tagVP8, isFeatureTag,
        take4_eq, drop4_eq]

theorem rvh_skip (a b c d : Nat) (hnp : [a, b, c, d] ≠ tagVP8)
    (hnf : isFeatureTag [a, b, c, d] = false)
    (b0 b1 b2 b3 : Nat) (data rest : List Nat)
    (hd : data.length = padded_skip (le32 b0 b1 b2 b3)) :
    read_vp8_header (a :: b :: c :: d :: b0 :: b1 :: b2 :: b3 :: (data ++ rest)) =
      read_vp8_header rest := by
  rw [read_vp8_header]
  simp only [take4_eq, drop4_eq, hnf, if_neg hnp, Bool.false_eq_true, if_false]
  rw [← hd, List.drop_left]

theorem rvh_short (s : List Nat) (h : s.length < 8)
    (hnf : isFeatureTag (s.take 4) = false) :
    read_vp8_header s = (.error .ioTruncated, []) := by
  have hlt : (s.drop 4).length < 4 := by simp only [List.length_drop]; omega
  rw [read_vp8_header]
  split
  · split
    · next b0 b1 b2 b3 s2 heq =>
        exfalso; rw [heq] at hlt; simp only [List.length_cons] at hlt; omega
    · rfl
  · split
    · next hft => rw [hnf] at hft; cases hft
    · split
      · next b0 b1 b2 b3 s2 heq =>
          exfalso; rw [heq] at hlt; simp only [List.length_cons] at hlt; omega
      · rfl

theorem rrh_valid (b0 b1 b2 b3 : Nat) (rest : List Nat) :
    read_riff_header (tagRIFF ++ b0 :: b1 :: b2 :: b3 :: (tagWEBP ++ rest)) =
      (.ok (le32 b0 b1 b2 b3), rest) := by
  rw [read_riff_header]
  simp [tagRIFF, tagWEBP, take4_eq, drop4_eq]

theorem rrh_short (s : List Nat) (h : s.length < 8) :
    read_riff_header s = (.error .ioTruncated, []) := by
  have hlt : (s.drop 4).length < 4 := by simp only [List.length_drop]; omega
  rw [read_riff_header]
  split
  · next b0 b1 b2 b3 s2 heq =>
      exfalso; rw [heq] at hlt; simp only [List.length_cons] at hlt; omega
  · rfl

theorem rrh_bad_riff (s : List Nat) (h8 : 8 ≤ s.length)
    (hbad : s.take 4 ≠ tagRIFF) :
    read_riff_header s =
      (.error (.malformedEnvelope "Invalid RIFF signature"), s.drop 12) := by
  obtain ⟨b0, b1, b2, b3, s2, h4⟩ :=
    list_four_cons (s.drop 4) (by simp only [List.length_drop]; omega)
  have hs2 : s2.drop 4 = s.drop 12 := by
    have : (s.drop 4).drop 4 = s2 := by rw [h4]; rfl
    rw [← this, List.drop_drop, List.drop_drop]
  rw [read_riff_header, h4]
  simp [hbad, hs2]

theorem rrh_bad_webp (s : List Nat) (h8 : 8 ≤ s.length)
    (hriff : s.take 4 = tagRIFF)
    (hwebp : ((s.drop 4).drop 4).take 4 ≠ tagWEBP) :
    read_riff_header s =
      (.error (.malformedEnvelope "Invalid WEBP signature"), s.drop 12) := by
  obtain ⟨b0, b1, b2, b3, s2, h4⟩ :=
    list_four_cons (s.drop 4) (by simp only [List.length_drop]; omega)
  have h44 : (s.drop 4).drop 4 = s2 := by rw [h4]; rfl
  have hs2t : s2.take 4 ≠ tagWEBP := by rw [← h44]; exact hwebp
  have hs2 : s2.drop 4 = s.drop 12 := by
    rw [← h44, List.drop_drop, List.drop_drop]
  rw [read_riff_header, h4]
  simp [hriff, hs2t, hs2]

theorem rm_ok_cases (dec : ExtDecoder) (d d1 : WebPDecoder)
    (h : read_metadata dec d = (.ok (), d1)) :
    d1.have_frame = true ∧ (d.have_frame = true → d1 = d) ∧
      (d.have_frame = false → ∃ bytes, dec bytes = .ok d1.frame) := by
  unfold read_metadata at h
  by_cases hf : d.have_frame
  · rw [if_pos hf] at h
    have hd : d = d1 := congrArg Prod.snd h
    subst hd
    exact ⟨hf, fun _ => rfl, fun hc => by rw [hf] at hc; cases hc⟩
  · rw [if_neg hf] at h
    rcases hrr : read_riff_header d.r with ⟨res1, r1⟩
    rw [hrr] at h
    cases res1 with
    | error e => simp at h
    | ok sz =>
      dsimp only [] at h
      rcases hvp : read_vp8_header r1 with ⟨res2, r2⟩
      rw [hvp] at h
      cases res2 with
      | error e => simp at h
      | ok len =>
        dsimp only [] at h
        rcases hfr : read_frame dec len r2 with ⟨res3, r3⟩
        rw [hfr] at h
        cases res3 with
        | error e => simp at h
        | ok frame =>
          dsimp only [] at h
          simp only [Prod.mk.injEq] at h
          have hd : ({ r := r3, frame := frame, have_frame := true } : WebPDecoder) = d1 := h.2
          subst hd
          refine ⟨rfl, fun hc => absurd hc hf, fun _ => ⟨r2.take len, ?_⟩⟩
          unfold read_frame at hfr
          dsimp only [] at hfr
          rcases hdec : dec (r2.take len) with f | f
          · rw [hdec] at hfr
            dsimp only [] at hfr
            exact absurd (congrArg Prod.fst hfr) (by simp)
          · rw [hdec] at hfr
            dsimp only [] at hfr
            simp only [Prod.mk.injEq, Except.ok.injEq] at hfr
            simp [hfr.1]

/-- C8: metadata extraction is idempotent — a second call on an
instance whose extraction already succeeded is a pure no-op: it returns
success with the state (byte source, frame, flag) completely unchanged,
so no further reads happen on the source. -/
theorem c8_read_metadata_idempotent (dec : ExtDecoder) (d d1 : WebPDecoder)
    (h : read_metadata dec d = (.ok (), d1)) :
    read_metadata dec d1 = (.ok (), d1) := by
  have hflag := (rm_ok_cases dec d d1 h).1
  simp [read_metadata, hflag]

theorem rm_concrete :
    read_metadata stubDec
        ⟨tagRIFF ++ 12 :: 0 :: 0 :: 0 :: (tagWEBP ++ (tagVP8 ++ [0, 0, 0, 0])),
          defaultFrame, false⟩ =
      (.ok (), ⟨[], ⟨2, 2, [128, 128, 128, 128]⟩, true⟩) := by
  have h1 := rrh_valid 12 0 0 0 (tagVP8 ++ [0, 0, 0, 0])
  have h2 : read_vp8_header (tagVP8 ++ [0, 0, 0, 0]) = (.ok 0, []) := by
    simpa [le32] using rvh_payload 0 0 0 0 []
  simp [read_metadata, h1, h2, read_frame, stubDec]

theorem c8_witness :
    read_metadata stubDec ⟨[], ⟨2, 2, [128, 128, 128, 128]⟩, true⟩ =
      (.ok (), ⟨[], ⟨2, 2, [128, 128, 128, 128]⟩, true⟩) :=
  c8_read_metadata_idempotent stubDec
    ⟨tagRIFF ++ 12 :: 0 :: 0 :: 0 :: (tagWEBP ++ (tagVP8 ++ [0, 0, 0, 0])),
      defaultFrame, false⟩
    ⟨[], ⟨2, 2, [128, 128, 128, 128]⟩, true⟩ rm_concrete

/-- C9: if any step of metadata extraction fails, the error is
propagated (the call returns exactly that error), the one-shot
`have_frame` flag is left unset, and the stored frame is unchanged from
what it was before the call — no decoded frame state becomes
observable. -/
theorem c9_error_leaves_state (dec : ExtDecoder) (d d1 : WebPDecoder)
    (e : WebpError) (h : read_metadata dec d = (.error e, d1)) :
    d.have_frame = false ∧ d1.have_frame = false ∧ d1.frame = d.frame := by
  unfold read_metadata at h
  by_cases hf : d.have_frame
  · rw [if_pos hf] at h
    exact absurd (congrArg Prod.fst h) (by simp)
  · rw [if_neg hf] at h
    refine ⟨by simpa using hf, ?_⟩
    rcases hrr : read_riff_header d.r with ⟨res1, r1⟩
    rw [hrr] at h
    cases res1 with
    | error e1 =>
      dsimp only [] at h
      simp only [Prod.mk.injEq] at h
      rw [← h.2]
      exact ⟨by simpa using hf, rfl⟩
    | ok sz =>
      dsimp only [] at h
      rcases hvp : read_vp8_header r1 with ⟨res2, r2⟩
      rw [hvp] at h
      cases res2 with
      | error e2 =>
        dsimp only [] at h
        simp only [Prod.mk.injEq] at h
        rw [← h.2]
        exact ⟨by simpa using hf, rfl⟩
      | ok len =>
        dsimp only [] at h
        rcases hfr : read_frame dec len r2 with ⟨res3, r3⟩
        rw [hfr] at h
        cases res3 with
        | error e3 =>
          dsimp only [] at h
          simp only [Prod.mk.injEq] at h
          rw [← h.2]
          exact ⟨by simpa using hf, rfl⟩
        | ok frame => simp at h

theorem c9_witness :
    (⟨tagRIFF ++ 0 :: 0 :: 0 :: 0 :: (tagWEBP ++ tagALPH),
        defaultFrame, false⟩ : WebPDecoder).have_frame = false ∧
      (⟨[], defaultFrame, false⟩ : WebPDecoder).have_frame = false ∧
      (⟨[], defaultFrame, false⟩ : WebPDecoder).frame =
        (⟨tagRIFF ++ 0 :: 0 :: 0 :: 0 :: (tagWEBP ++ tagALPH),
          defaultFrame, false⟩ : WebPDecoder).frame :=
  c9_error_leaves_state stubDec
    ⟨tagRIFF ++ 0 :: 0 :: 0 :: 0 :: (tagWEBP ++ tagALPH), defaultFrame, false⟩
    ⟨[], defaultFrame, false⟩ .unsupportedFeature
    (by
      have h1 := rrh_valid 0 0 0 0 tagALPH
      have h2 : read_vp8_header tagALPH = (.error .unsupportedFeature, []) := by
        simpa using rvh_feature tagALPH (by decide) []
      simp [read_metadata, h1, h2])

/-- C10: the public constructor runs metadata extraction eagerly, so
every decoder it returns successfully has the one-shot flag set and
holds a frame actually produced by the external bitstream decoder;
`dimensions` and `color_type` on it are pure reads of that state (total
functions with no error path). -/
theorem c10_new_initialized (dec : ExtDecoder) (r : List Nat) (d : WebPDecoder)
    (h : WebPDecoder.new dec r = .ok d) :
    d.have_frame = true ∧ (∃ bytes, dec bytes = .ok d.frame) ∧
      d.dimensions = (d.frame.width, d.frame.height) ∧
      d.color_type = ColorType.L8 := by
  unfold WebPDecoder.new at h
  dsimp only [] at h
  rcases hrm : read_metadata dec ⟨r, defaultFrame, false⟩ with ⟨res, d1⟩
  rw [hrm] at h
  cases res with
  | error e => simp at h
  | ok u =>
    cases u
    dsimp only [] at h
    simp only [Except.ok.injEq] at h
    subst h
    have hc := rm_ok_cases dec ⟨r, defaultFrame, false⟩ d1 hrm
    exact ⟨hc.1, hc.2.2 rfl, rfl, rfl⟩

theorem c10_witness :
    (⟨[], ⟨2, 2, [128, 128, 128, 128]⟩, true⟩ : WebPDecoder).have_frame = true ∧
      (∃ bytes, stubDec bytes =
        .ok (⟨[], ⟨2, 2, [128, 128, 128, 128]⟩, true⟩ : WebPDecoder).frame) ∧
      (⟨[], ⟨2, 2, [128, 128, 128, 128]⟩, true⟩ : WebPDecoder).dimensions =
        ((⟨[], ⟨2, 2, [128, 128, 128, 128]⟩, true⟩ : WebPDecoder).frame.width,
          (⟨[], ⟨2, 2, [128, 128, 128, 128]⟩, true⟩ : WebPDecoder).frame.height) ∧
      (⟨[], ⟨2, 2, [128, 128, 128, 128]⟩, true⟩ : WebPDecoder).color_type =
        ColorType.L8 :=
  c10_new_initialized stubDec
    (tagRIFF ++ 12 :: 0 :: 0 :: 0 :: (tagWEBP ++ (tagVP8 ++ [0, 0, 0, 0])))
    ⟨[], ⟨2, 2, [128, 128, 128, 128]⟩, true⟩
    (by simp [WebPDecoder.new, rm_concrete])

/-- C1: for every stream made of a valid envelope ("RIFF", any 4 size
bytes, "WEBP") followed immediately by one of the four
unsupported-feature tags, metadata extraction fails with the
unsupported-feature error, and the result is the same for every choice
of bytes after the tag (including none): the walker stops at the tag
without reading the chunk's length. -/
theorem c1_feature_tag_rejected (dec : ExtDecoder) (f : Frame) (t : List Nat)
    (sz0 sz1 sz2 sz3 : Nat) (suffix : List Nat) (ht : isFeatureTag t = true) :
    read_metadata dec
        ⟨tagRIFF ++ sz0 :: sz1 :: sz2 :: sz3 :: (tagWEBP ++ (t ++ suffix)), f, false⟩ =
      (.error .unsupportedFeature, ⟨suffix, f, false⟩) := by
  have h1 := rrh_valid sz0 sz1 sz2 sz3 (t ++ suffix)
  have h2 := rvh_feature t ht suffix
  simp [read_metadata, h1, h2]

theorem c1_witness :
    read_metadata stubDec
        ⟨tagRIFF ++ 0 :: 0 :: 0 :: 0 :: (tagWEBP ++ (tagVP8L ++ [])),
          defaultFrame, false⟩ =
      (.error .unsupportedFeature, ⟨[], defaultFrame, false⟩) :=
  c1_feature_tag_rejected stubDec defaultFrame tagVP8L 0 0 0 0 [] (by decide)

/-- C3 (counterexample to the claim as stated): the 4-byte stream
`[0,0,0,0]` has its first 4 bytes different from "RIFF", yet metadata
extraction fails with the truncation error, not a malformed-envelope
error — the envelope validator reads the size field (and fails there)
before it ever compares the magic bytes. -/
theorem c3_counterexample :
    (read_metadata stubDec ⟨[0, 0, 0, 0], defaultFrame, false⟩).fst =
        .error .ioTruncated ∧
      result_malformed (read_metadata stubDec ⟨[0, 0, 0, 0], defaultFrame, false⟩) =
        false := by
  decide

/-- C3 (amended): for every uninitialized decoder whose source's first 4
bytes differ from "RIFF", metadata extraction fails — with the
malformed-envelope error "Invalid RIFF signature" when at least 8 bytes
are available (so the size field can be read), and with the truncation
error when fewer than 8 bytes are available; in both cases the flag
stays unset and the stored frame is unchanged (and the model is a total
function, so no panic is possible). -/
theorem c3_bad_magic (dec : ExtDecoder) (d : WebPDecoder)
    (hf : d.have_frame = false) (hbad : d.r.take 4 ≠ tagRIFF) :
    (if 8 ≤ d.r.length then
        (read_metadata dec d).fst =
          .error (.malformedEnvelope "Invalid RIFF signature")
      else (read_metadata dec d).fst = .error .ioTruncated) ∧
      (read_metadata dec d).snd.have_frame = false ∧
      (read_metadata dec d).snd.frame = d.frame := by
  by_cases h8 : 8 ≤ d.r.length
  · rw [if_pos h8]
    have h1 := rrh_bad_riff d.r h8 hbad
    simp [read_metadata, hf, h1]
  · rw [if_neg h8]
    have h1 := rrh_short d.r (by omega)
    simp [read_metadata, hf, h1]

theorem c3_witness :
    (if 8 ≤ (⟨[1, 2, 3, 4, 5, 6, 7, 8], defaultFrame, false⟩ : WebPDecoder).r.length then
        (read_metadata stubDec ⟨[1, 2, 3, 4, 5, 6, 7, 8], defaultFrame, false⟩).fst =
          .error (.malformedEnvelope "Invalid RIFF signature")
      else
        (read_metadata stubDec ⟨[1, 2, 3, 4, 5, 6, 7, 8], defaultFrame, false⟩).fst =
          .error .ioTruncated) ∧
      (read_metadata stubDec ⟨[1, 2, 3, 4, 5, 6, 7, 8], defaultFrame, false⟩).snd.have_frame =
        false ∧
      (read_metadata stubDec ⟨[1, 2, 3, 4, 5, 6, 7, 8], defaultFrame, false⟩).snd.frame =
        (⟨[1, 2, 3, 4, 5, 6, 7, 8], defaultFrame, false⟩ : WebPDecoder).frame :=
  c3_bad_magic stubDec ⟨[1, 2, 3, 4, 5, 6, 7, 8], defaultFrame, false⟩ rfl (by decide)

/-- C4 (counterexample to the claim as stated): the 8-byte stream
"RIFF" + 4 size bytes ends before the 12-byte envelope is complete, yet
envelope validation fails with the malformed-envelope error "Invalid
WEBP signature" (the short format-tag read yields fewer than 4 bytes,
which simply fail the comparison), not with the truncation error. -/
theorem c4_counterexample :
    (read_riff_header (tagRIFF ++ [0, 0, 0, 0])).fst =
        .error (.malformedEnvelope "Invalid WEBP signature") ∧
      (tagRIFF ++ [0, 0, 0, 0]).length = 8 ∧
      (read_riff_header (tagRIFF ++ [0, 0, 0, 0])).fst ≠ .error .ioTruncated := by
  decide

/-- C4 (amended): during envelope validation of a stream shorter than
the full 12-byte envelope, the result is the truncation error exactly
when the stream ends before the 8-byte tag-plus-size prefix; a stream
that ends inside the 4-byte format tag (length 8 to 11) fails the tag
comparison instead and yields a malformed-envelope error. -/
theorem c4_truncated_envelope (s : List Nat) (h : s.length < 12) :
    if s.length < 8 then read_riff_header s = (.error .ioTruncated, [])
    else ∃ msg, (read_riff_header s).fst = .error (.malformedEnvelope msg) := by
  by_cases h8 : s.length < 8
  · rw [if_pos h8]
    exact rrh_short s h8
  · rw [if_neg h8]
    by_cases hriff : s.take 4 = tagRIFF
    · refine ⟨"Invalid WEBP signature", ?_⟩
      rw [rrh_bad_webp s (by omega) hriff ?_]
      intro hcontr
      have hlen := congrArg List.length hcontr
      simp only [List.length_take, List.length_drop, tagWEBP,
        List.length_cons, List.length_nil] at hlen
      omega
    · exact ⟨"Invalid RIFF signature",
        by rw [rrh_bad_riff s (by omega) hriff]⟩

theorem c4_witness :
    (if ([0, 0, 0] : List Nat).length < 8 then
        read_riff_header [0, 0, 0] = (.error .ioTruncated, [])
      else ∃ msg, (read_riff_header [0, 0, 0]).fst = .error (.malformedEnvelope msg)) :=
  c4_truncated_envelope [0, 0, 0] (by decide)

/-- C2 (code evaluation at the failing input): an ignorable chunk with
tag "XXXX" and declared length 4294967295 (odd, the largest `u32`) is
followed immediately by a "VP8 " payload chunk declaring length 5.  Per
the claim the walker must consume 4294967295 + 1 = 2^32 padded bytes,
which are not present, so it should run out of input; instead the `u32`
increment `len += 1` wraps to 0, the walker consumes no payload bytes at
all, reads the payload tag right after the length field, and returns 5. -/
theorem c2_overflow_eval :
    read_vp8_header
        (88 :: 88 :: 88 :: 88 :: 255 :: 255 :: 255 :: 255 ::
          (tagVP8 ++ [5, 0, 0, 0])) =
      (.ok 5, []) := by
  have h := rvh_skip 88 88 88 88 (by decide) (by decide) 255 255 255 255 []
    (tagVP8 ++ [5, 0, 0, 0]) (by decide)
  rw [List.nil_append] at h
  rw [h]
  simpa [le32] using rvh_payload 5 0 0 0 []

/-- C5 (code evaluation at the failing input): a stream consisting of a
single well-formed ignorable chunk and then end-of-stream — tag "XXXX",
declared length 4294967295, and exactly 4294967295 payload bytes plus
one pad byte (here: the bytes of a "VP8 " tag, a length field 7, and
4294967288 zero bytes) — on which the claim requires the walker to skip
the whole chunk, hit end-of-stream, and fail with the truncation error.
Instead the wrapped `u32` increment makes the walker skip 0 bytes and
misread the chunk's payload bytes as a "VP8 " chunk header, returning
success with length 7. -/
theorem c5_overflow_eval :
    read_vp8_header
        (88 :: 88 :: 88 :: 88 :: 255 :: 255 :: 255 :: 255 ::
          (tagVP8 ++ 7 :: 0 :: 0 :: 0 :: List.replicate 4294967288 0)) =
      (.ok 7, List.replicate 4294967288 0) := by
  have h := rvh_skip 88 88 88 88 (by decide) (by decide) 255 255 255 255 []
    (tagVP8 ++ 7 :: 0 :: 0 :: 0 :: List.replicate 4294967288 0) (by decide)
  rw [List.nil_append] at h
  have hle : le32 7 0 0 0 = 7 := by norm_num [le32]
  have hp := rvh_payload 7 0 0 0 (List.replicate 4294967288 0)
  rw [h, hp, hle]

/-- C6: for every decoder whose frame satisfies the decoded-frame
invariant (plane length = width × height, established by the external
decoder), `total_bytes` equals width × height, `read_image` on a buffer
of exactly that length succeeds and yields exactly the stored plane,
and `read_image` on a buffer of any other length fails the assertion
(modelled as `none`) — it never truncates or pads. -/
theorem c6_read_image_contract (d : WebPDecoder)
    (hinv : d.frame.ybuf.length = d.frame.width * d.frame.height) :
    d.total_bytes = d.frame.width * d.frame.height ∧
      (∀ buf : List Nat, buf.length = d.total_bytes →
        d.read_image buf = some d.frame.ybuf) ∧
      (∀ buf : List Nat, buf.length ≠ d.total_bytes → d.read_image buf = none) := by
  have ht : d.total_bytes = d.frame.width * d.frame.height := by
    simp [WebPDecoder.total_bytes, WebPDecoder.dimensions, WebPDecoder.color_type,
      ColorType.bytes_per_pixel]
  refine ⟨ht, fun buf hb => ?_, fun buf hb => ?_⟩
  · have h2 : buf.length = d.frame.ybuf.length := by rw [hb, ht, hinv]
    simp [WebPDecoder.read_image, hb, h2]
    rw [ht, hinv]
  · simp [WebPDecoder.read_image, hb]

theorem c6_witness :
    WebPDecoder.read_image ⟨[], ⟨2, 2, [128, 128, 128, 128]⟩, true⟩ [0, 0, 0, 0] =
      some [128, 128, 128, 128] :=
  (c6_read_image_contract ⟨[], ⟨2, 2, [128, 128, 128, 128]⟩, true⟩ (by decide)).2.1
    [0, 0, 0, 0] (by decide)

theorem run_eq_of_same_remaining (reqs : List ReadReq) :
    ∀ (w : WebpReader) (c : RefReader),
      w.vec.drop w.pos = c.vec.drop c.pos →
      runWebp reqs w = runRef reqs c := by
  induction reqs with
  | nil => intro w c _; rfl
  | cons q rest ih =>
    intro w c h
    cases q with
    | read n =>
      simp only [runWebp, runRef, WebpReader.read, RefReader.read]
      rw [h]
      congr 1
      apply ih
      dsimp only []
      have hdd : ∀ (v : List Nat) (p k : Nat),
          List.drop (p + k) v = List.drop k (List.drop p v) := by
        intro v p k
        rw [List.drop_drop, Nat.add_comm]
      rw [hdd, hdd, h]
    | readToEnd buf =>
      simp only [runWebp, runRef, WebpReader.read_to_end, RefReader.read_to_end]
      by_cases hfast : w.pos = 0 ∧ buf = []
      · rw [if_pos hfast]
        obtain ⟨hp, hb⟩ := hfast
        subst hb
        have hv : w.vec = c.vec.drop c.pos := by rw [← h, hp, List.drop_zero]
        dsimp only []
        rw [hv, List.nil_append]
        congr 1
        apply ih
        simp [List.drop_length]
      · rw [if_neg hfast]
        dsimp only []
        rw [h]
        congr 1
        apply ih
        simp [List.drop_length]

/-- C7: the sequential reader produced by `into_reader` is
observationally equivalent to the always-copy reference reader over the
same decoded plane: every sequence of `read` / `read_to_end` requests
yields identical delivered bytes, buffer contents and counts, so the
zero-copy buffer hand-off on a first full read is never observable
through content. -/
theorem c7_reader_equiv_copy (d : WebPDecoder) (reqs : List ReadReq) :
    runWebp reqs d.into_reader = runRef reqs ⟨d.frame.ybuf, 0⟩ :=
  run_eq_of_same_remaining reqs d.into_reader ⟨d.frame.ybuf, 0⟩ rfl

theorem padded_skip_no_wrap (len : Nat) (h : len < 4294967295) :
    padded_skip len = len + len % 2 := by
  unfold padded_skip
  rcases Nat.even_or_odd len with he | ho
  · have h2 : len % 2 = 0 := Nat.even_iff.mp he
    simp [h2]
  · have h2 : len % 2 = 1 := Nat.odd_iff.mp ho
    have h3 : (len + 1) % 4294967296 = len + 1 := Nat.mod_eq_of_lt (by omega)
    simp [h2, h3]

theorem ignorable_five_round_trip (a b c d : Nat)
    (hnp : [a, b, c, d] ≠ tagVP8) (hnf : isFeatureTag [a, b, c, d] = false)
    (x1 x2 x3 x4 x5 x6 : Nat) (l0 l1 l2 l3 : Nat) (rest : List Nat) :
    read_vp8_header
        (a :: b :: c :: d :: 5 :: 0 :: 0 :: 0 ::
          ([x1, x2, x3, x4, x5, x6] ++ (tagVP8 ++ l0 :: l1 :: l2 :: l3 :: rest))) =
      (.ok (le32 l0 l1 l2 l3), rest) := by
  rw [rvh_skip a b c d hnp hnf 5 0 0 0 [x1, x2, x3, x4, x5, x6]
    (tagVP8 ++ l0 :: l1 :: l2 :: l3 :: rest) (by norm_num [le32, padded_skip])]
  exact rvh_payload l0 l1 l2 l3 rest

theorem rvh_ignorable_stream (s : List Nat) (h : IgnorableStream s) :
    read_vp8_header s = (.error .ioTruncated, []) := by
  induction h with
  | nil => exact rvh_short [] (by simp) (by decide)
  | cons a b c d b0 b1 b2 b3 data rest hnp hnf hd hrest ih =>
    rw [rvh_skip a b c d hnp hnf b0 b1 b2 b3 data rest hd]
    exact ih
